import Mathlib

/-!
Shallow embedding of the `csussus` lexer (`src/lexer.rs`).

The Rust code scans the source file as a byte slice (`&[u8]`), tracking the
current line (1-based), the address of the current line start, and three
append-only sequences: line-break offsets, token spans and token types.
We model:
  * the source text as a `List Nat` of byte values (concrete inputs in this
    development are ASCII, so Unicode codepoints coincide with bytes);
  * the shrinking input suffix as a byte offset `pos` into the fixed list,
    and the address-based `line_start` as the byte offset of the current
    line start (the Rust code subtracts raw addresses; subtracting the
    buffer base address from both operands gives exactly these offsets);
  * `usize` subtraction as `wsub`, wrapping at 2^64 the way a release-mode
    Rust build does (the lexer can in fact underflow, see `wsub` call sites
    for multi-line string literals);
  * Rust panics as `Except.error`: the five lexical `panic!` calls become
    `Failure.err` with their kind, line and column, and a slice-indexing
    panic (`input[0]` on an empty slice, which the Rust code performs in
    several loops) becomes `Failure.indexOutOfBounds`;
  * the unbounded Rust loops and the recursion of `consume_token` with an
    explicit fuel argument; exhausting fuel is the loud, separate outcome
    `Failure.outOfFuel`, never a silently truncated result.  `lex` passes
    ample fuel for every input that terminates.
-/

namespace Csussus

/-- Token kinds (`enum TokenType` in `src/lexer.rs`). -/
inductive TokenType where
  | And | Or | Xor | Not
  | Equals | NotEquals | LessThan | GreaterThan | LessEqual | GreaterEqual
  | Feather | Arrow
  | Ampersand | Pipe | Caret | Tilde | LShift | RShift
  | Incr | Decr | Plus | Minus | Mul | Div | Pow | Modulo
  | Pub
  | Packed | Struct | Enum | Union
  | Fn | Defer | If | Then | Else | While | Do | Loop | Continue | Break
  | Equal | Semi | Colon | Comma | Dot
  | LParens | RParens | LBracket | RBracket | LBrace | RBrace
  | String | StringInterpBeg | StringInterpMid | StringInterpEnd
  | Char | Ident | Num
  deriving DecidableEq, Repr

/-- Model of `struct TokenSpan` from the source: the borrowed slice of the source text
(held here as its byte values), the 1-based line and the 0-based column
(computed by the source as a `usize` subtraction, hence wrapping). -/
structure TokenSpan where
  slice : List Nat
  line : Nat
  col : Nat
  deriving DecidableEq, Repr

/-- Model of `struct Tokens` from the source: the three parallel sequences
(`line_breaks`, `spans`, `types`); the `code` field is threaded separately
as an explicit argument in this embedding. -/
structure Tokens where
  line_breaks : List Nat
  spans : List TokenSpan
  types : List TokenType
  deriving DecidableEq, Repr

/-- The kinds of the five `panic!` messages of the lexer. -/
inductive ErrKind where
  | unfinishedInterpString
  | unfinishedString
  | unfinishedChar
  | unclosedParen
  | unclosedBracket
  | unclosedBrace
  | cannotParse
  deriving DecidableEq, Repr

/-- How a run of the lexer can abort: a positioned lexical `panic!`, a Rust
slice-indexing panic (`input[0]` on an empty slice), or — an artifact of the
fueled embedding only — fuel exhaustion. -/
inductive Failure where
  | outOfFuel
  | indexOutOfBounds
  | err (kind : ErrKind) (line : Nat) (col : Nat)
  deriving DecidableEq, Repr

/-- The mutable state threaded through `consume_token` by reference:
the remaining-input position, `line`, `line_start` (as byte offsets from
the buffer base) and the token store. -/
structure LexSt where
  pos : Nat
  line : Nat
  line_start : Nat
  tokens : Tokens
  deriving DecidableEq, Repr

/-- Byte values of a (pure-ASCII, in this development) source string. -/
def strBytes (s : String) : List Nat :=
  s.data.map Char.toNat

/-- Peek in the style of `input[0]`: the byte at offset `p`, if in bounds. -/
def byteAt (code : List Nat) (p : Nat) : Option Nat :=
  code[p]?

/-- Wrapping `usize` subtraction (release-mode Rust semantics); both
operands in the lexer are addresses/offsets below 2^64. -/
def wsub (a b : Nat) : Nat :=
  (a + 2 ^ 64 - b) % 2 ^ 64

/-- Predicate `u8::is_ascii_whitespace`: space, tab, newline, form feed, carriage return. -/
def isWs (b : Nat) : Bool :=
  b == 32 || b == 9 || b == 10 || b == 12 || b == 13

/-- Identifier start: `_`, `A..=Z`, `a..=z` (line 521 of the source). -/
def isIdentStart (b : Nat) : Bool :=
  b == 95 || (decide (65 ≤ b) && decide (b ≤ 90)) || (decide (97 ≤ b) && decide (b ≤ 122))

/-- Identifier continuation: also `0..=9` (line 525). -/
def isIdentCont (b : Nat) : Bool :=
  isIdentStart b || (decide (48 ≤ b) && decide (b ≤ 57))

/-- ASCII digit. -/
def isDigit (b : Nat) : Bool :=
  decide (48 ≤ b) && decide (b ≤ 57)

/-- Hex-literal continuation: `_`, `0-9`, `a-f`, `A-F` (line 651). -/
def isHexCont (b : Nat) : Bool :=
  b == 95 || isDigit b || (decide (97 ≤ b) && decide (b ≤ 102))
    || (decide (65 ≤ b) && decide (b ≤ 70))

/-- Octal-literal continuation: `_`, `0-7` (line 657). -/
def isOctCont (b : Nat) : Bool :=
  b == 95 || (decide (48 ≤ b) && decide (b ≤ 55))

/-- Binary-literal continuation: `_`, `0-1` (line 663). -/
def isBinCont (b : Nat) : Bool :=
  b == 95 || b == 48 || b == 49

/-- Decimal-literal continuation: `_`, `0-9` (lines 671/678/689). -/
def isDecCont (b : Nat) : Bool :=
  b == 95 || isDigit b

/-- Recording one line break (source lines 229-235, 388-395, 439-444,
493-498): append the newline's offset, step past it, reset the line start,
bump the line counter. -/
def newlineStep (st : LexSt) : LexSt :=
  { pos := st.pos + 1
    line := st.line + 1
    line_start := st.pos + 1
    tokens := { st.tokens with line_breaks := st.tokens.line_breaks ++ [st.pos] } }

/-- One token emission: `types.add` followed by `spans.add`, as every
emitting branch of the source does. -/
def emitTok (t : TokenType) (sp : TokenSpan) (st : LexSt) : LexSt :=
  { st with
    tokens := { st.tokens with
                spans := st.tokens.spans ++ [sp]
                types := st.tokens.types ++ [t] } }

/-- Advance the cursor: `input = &input[n..]`. -/
def advance (n : Nat) (st : LexSt) : LexSt :=
  { st with pos := st.pos + n }

/-- The byte sub-range `bcode[p..p+n]`. -/
def sliceAt (code : List Nat) (p n : Nat) : List Nat :=
  (code.drop p).take n

/-- The 2-byte operator table (source lines 259-274), in source order. -/
def opMatch2 (code : List Nat) (p : Nat) : Option TokenType :=
  match byteAt code p, byteAt code (p + 1) with
  | some a, some b =>
    if a = 61 ∧ b = 61 then some .Equals
    else if a = 33 ∧ b = 61 then some .NotEquals
    else if a = 60 ∧ b = 61 then some .LessEqual
    else if a = 62 ∧ b = 61 then some .GreaterEqual
    else if a = 62 ∧ b = 45 then some .Feather
    else if a = 45 ∧ b = 62 then some .Arrow
    else if a = 60 ∧ b = 60 then some .LShift
    else if a = 62 ∧ b = 62 then some .RShift
    else if a = 43 ∧ b = 43 then some .Incr
    else if a = 45 ∧ b = 45 then some .Decr
    else if a = 42 ∧ b = 42 then some .Pow
    else none
  | _, _ => none

/-- The 1-byte operator table (source lines 282-308), in source order. -/
def opMatch1 (code : List Nat) (p : Nat) : Option TokenType :=
  match byteAt code p with
  | some a =>
    if a = 37 then some .Modulo
    else if a = 60 then some .LessThan
    else if a = 62 then some .GreaterThan
    else if a = 38 then some .Ampersand
    else if a = 124 then some .Pipe
    else if a = 94 then some .Caret
    else if a = 126 then some .Tilde
    else if a = 43 then some .Plus
    else if a = 45 then some .Minus
    else if a = 42 then some .Mul
    else if a = 47 then some .Div
    else if a = 61 then some .Equal
    else if a = 59 then some .Semi
    else if a = 58 then some .Colon
    else if a = 44 then some .Comma
    else if a = 46 then some .Dot
    else if a = 40 then some .LParens
    else if a = 41 then some .RParens
    else if a = 91 then some .LBracket
    else if a = 93 then some .RBracket
    else if a = 123 then some .LBrace
    else if a = 125 then some .RBrace
    else none
  | none => none

/-- Operator lookup, 2-byte table strictly before 1-byte table (the `'op`
block, source lines 256-317); returns the kind and the matched length. -/
def opMatch (code : List Nat) (p : Nat) : Option (TokenType × Nat) :=
  match opMatch2 code p with
  | some t => some (t, 2)
  | none =>
    match opMatch1 code p with
    | some t => some (t, 1)
    | none => none

/-- The operator emission (source lines 319-324): span of exactly the
matched bytes, column at the token start, cursor advanced by the length. -/
def opStep (code : List Nat) (st : LexSt) (t : TokenType) (n : Nat) : LexSt :=
  advance n
    (emitTok t ⟨sliceAt code st.pos n, st.line, wsub st.pos st.line_start⟩ st)

/-- Keyword lookup (source lines 536-633): lengths 8, 6, 5, 4, 3, 2 tried in
that order, and at each length only the *prefix* of the identifier of that
length is compared — identifier length is checked with `>=`, never `==`. -/
def kwLookup (s : List Nat) : Option TokenType :=
  if 8 ≤ s.length ∧ s.take 8 = strBytes "continue" then some .Continue
  else if 6 ≤ s.length ∧ s.take 6 = strBytes "packed" then some .Packed
  else if 6 ≤ s.length ∧ s.take 6 = strBytes "struct" then some .Struct
  else if 5 ≤ s.length ∧ s.take 5 = strBytes "union" then some .Union
  else if 5 ≤ s.length ∧ s.take 5 = strBytes "defer" then some .Defer
  else if 5 ≤ s.length ∧ s.take 5 = strBytes "while" then some .While
  else if 5 ≤ s.length ∧ s.take 5 = strBytes "break" then some .Break
  else if 4 ≤ s.length ∧ s.take 4 = strBytes "enum" then some .Enum
  else if 4 ≤ s.length ∧ s.take 4 = strBytes "then" then some .Then
  else if 4 ≤ s.length ∧ s.take 4 = strBytes "else" then some .Else
  else if 4 ≤ s.length ∧ s.take 4 = strBytes "loop" then some .Loop
  else if 3 ≤ s.length ∧ s.take 3 = strBytes "and" then some .And
  else if 3 ≤ s.length ∧ s.take 3 = strBytes "xor" then some .Xor
  else if 3 ≤ s.length ∧ s.take 3 = strBytes "not" then some .Not
  else if 3 ≤ s.length ∧ s.take 3 = strBytes "pub" then some .Pub
  else if 2 ≤ s.length ∧ s.take 2 = strBytes "or" then some .Or
  else if 2 ≤ s.length ∧ s.take 2 = strBytes "fn" then some .Fn
  else if 2 ≤ s.length ∧ s.take 2 = strBytes "if" then some .If
  else if 2 ≤ s.length ∧ s.take 2 = strBytes "do" then some .Do
  else none

/-- The newline-recording loop at the top of `consume_token`
(source lines 229-235): `while !input.is_empty() && input[0] == b'\n'`. -/
def skipNewlines (code : List Nat) : Nat → LexSt → Except Failure LexSt
  | 0, _ => .error .outOfFuel
  | n + 1, st =>
    match byteAt code st.pos with
    | some 10 => skipNewlines code n (newlineStep st)
    | _ => .ok st

/-- The whitespace loop (source lines 238-240):
`while !input.is_empty() && input[0].is_ascii_whitespace()` — note it eats
newlines too, *without* recording them. -/
def skipWs (code : List Nat) : Nat → LexSt → Except Failure LexSt
  | 0, _ => .error .outOfFuel
  | n + 1, st =>
    match byteAt code st.pos with
    | some b => if isWs b then skipWs code n (advance 1 st) else .ok st
    | none => .ok st

/-- The comment loop (source lines 248-252): `while input[0] != b'\n'` —
indexing with no emptiness check, so a comment that reaches end of input
panics out of bounds. -/
def skipComment (code : List Nat) : Nat → LexSt → Except Failure LexSt
  | 0, _ => .error .outOfFuel
  | n + 1, st =>
    match byteAt code st.pos with
    | none => .error .indexOutOfBounds
    | some 10 => .ok st
    | some _ => skipComment code n (advance 1 st)

/-- The body loop shared by plain strings (`q` = 34, source lines 426-448)
and chars (`q` = 39, lines 480-502): an escaped quote `\q` is a two-byte
unit; a bare `q` terminates (returns `true`); newlines are recorded; end of
input exits with `false`. -/
def scanLit (code : List Nat) (q : Nat) : Nat → LexSt → Except Failure (Bool × LexSt)
  | 0, _ => .error .outOfFuel
  | n + 1, st =>
    match byteAt code st.pos with
    | none => .ok (false, st)
    | some b =>
      if b = 92 ∧ byteAt code (st.pos + 1) = some q then
        scanLit code q n (advance 2 st)
      else if b = q then .ok (true, advance 1 st)
      else if b = 10 then scanLit code q n (newlineStep st)
      else scanLit code q n (advance 1 st)

/-- The `while matches!(input[0], ...)` loops of the identifier and number
scanners (source lines 525, 651, 657, 663, 671, 678, 689): indexing with no
emptiness check, so reaching end of input panics out of bounds. -/
def digitLoop (code : List Nat) (f : Nat → Bool) : Nat → LexSt → Except Failure LexSt
  | 0, _ => .error .outOfFuel
  | n + 1, st =>
    match byteAt code st.pos with
    | none => .error .indexOutOfBounds
    | some b => if f b then digitLoop code f n (advance 1 st) else .ok st

/-- Fuel given to the simple byte loops above: each iteration consumes at
least one byte, so `code.length + 1` can never be exhausted. -/
def loopFuel (code : List Nat) : Nat :=
  code.length + 1

/-- The identifier/keyword branch (source lines 521-641), entered when the
first byte is an identifier start: greedy identifier scan (panicking out of
bounds at end of input), then keyword classification of the *prefix*, then
one emission whose span is the whole identifier. -/
def identStep (code : List Nat) (st : LexSt) : Except Failure LexSt :=
  match digitLoop code isIdentCont (loopFuel code) (advance 1 st) with
  | .error e => .error e
  | .ok st2 =>
    let islice := sliceAt code st.pos (st2.pos - st.pos)
    let t := (kwLookup islice).getD TokenType.Ident
    .ok (emitTok t ⟨islice, st2.line, wsub st.pos st2.line_start⟩ st2)

/-- The number branch (source lines 645-703), entered when the first byte is
a digit: radix-prefixed or decimal/float scanning (each digit loop indexing
without an emptiness check), then one `Num` emission. -/
def numStep (code : List Nat) (st : LexSt) : Except Failure LexSt :=
  let scanned : Except Failure LexSt :=
    if byteAt code st.pos = some 48 ∧ byteAt code (st.pos + 1) = some 120 then
      digitLoop code isHexCont (loopFuel code) (advance 2 st)
    else if byteAt code st.pos = some 48 ∧ byteAt code (st.pos + 1) = some 111 then
      digitLoop code isOctCont (loopFuel code) (advance 2 st)
    else if byteAt code st.pos = some 48 ∧ byteAt code (st.pos + 1) = some 98 then
      digitLoop code isBinCont (loopFuel code) (advance 2 st)
    else
      -- whole part
      match digitLoop code isDecCont (loopFuel code) (advance 1 st) with
      | .error e => .error e
      | .ok st2 =>
        -- fractional part (`if input[0] == b'.'`; the preceding loop only
        -- returns at an in-bounds byte, so the peek cannot be out of bounds)
        let afterFrac : Except Failure LexSt :=
          if byteAt code st2.pos = some 46 then
            digitLoop code isDecCont (loopFuel code) (advance 1 st2)
          else .ok st2
        match afterFrac with
        | .error e => .error e
        | .ok st3 =>
          -- exponent
          if byteAt code st3.pos = some 101 ∨ byteAt code st3.pos = some 69 then
            let st4 := advance 1 st3
            -- `if matches!(input[0], b'+' | b'-')` — unchecked indexing again
            match byteAt code st4.pos with
            | none => .error .indexOutOfBounds
            | some c =>
              if c = 43 ∨ c = 45 then
                digitLoop code isDecCont (loopFuel code) (advance 1 st4)
              else
                digitLoop code isDecCont (loopFuel code) st4
          else .ok st3
  match scanned with
  | .error e => .error e
  | .ok stN =>
    .ok (emitTok .Num
      ⟨sliceAt code st.pos (stN.pos - st.pos), stN.line, wsub st.pos stN.line_start⟩ stN)

/-- The plain-string / char branch (source lines 411-464 and 467-518):
`q` is the closing quote byte, `plen` the recognized prefix length, `t` the
emitted kind and `k` the error kind on an unterminated literal.  Note the
emission happens *after* the body scan, so `line`/`line_start` are those at
the literal's end. -/
def litStep (code : List Nat) (q plen : Nat) (t : TokenType) (k : ErrKind)
    (st : LexSt) : Except Failure LexSt :=
  match scanLit code q (loopFuel code) (advance plen st) with
  | .error e => .error e
  | .ok (valid, st2) =>
    if valid then
      .ok (emitTok t
        ⟨sliceAt code st.pos (st2.pos - st.pos), st2.line, wsub st.pos st2.line_start⟩ st2)
    else
      .error (.err k st2.line (wsub (st.pos + 1) st2.line_start))

mutual

/-- Transcription of `consume_token` (source lines 218-742).  One fuel unit is spent per
recursive entanglement (interpolated-string scanning, nested token loops,
delimiter groups); the simple byte loops use their own ample `loopFuel`. -/
def consume_token (code : List Nat) : Nat → LexSt → Except Failure LexSt
  | 0, _ => .error .outOfFuel
  | fuel + 1, st0 =>
    match skipNewlines code (loopFuel code) st0 with
    | .error e => .error e
    | .ok st1 =>
      match skipWs code (loopFuel code) st1 with
      | .error e => .error e
      | .ok st =>
        match byteAt code st.pos with
        | none => .ok st  -- `if input.is_empty() { return input; }`
        | some b =>
          -- comments
          if b = 47 ∧ byteAt code (st.pos + 1) = some 47 then
            skipComment code (loopFuel code) (advance 2 st)
          else
            -- operators, 2-byte table before 1-byte table
            match opMatch code st.pos with
            | some (t, n) => .ok (opStep code st t n)
            | none =>
              -- interpolated strings
              if b = 36 ∧ byteAt code (st.pos + 1) = some 34 then
                interpScan code st.pos false fuel (advance 2 st)
              -- plain strings: prefixes `b"`, `c"`, `"`
              else if b = 98 ∧ byteAt code (st.pos + 1) = some 34 then
                litStep code 34 2 .String .unfinishedString st
              else if b = 99 ∧ byteAt code (st.pos + 1) = some 34 then
                litStep code 34 2 .String .unfinishedString st
              else if b = 34 then
                litStep code 34 1 .String .unfinishedString st
              -- chars: prefixes `b'`, `'`
              else if b = 98 ∧ byteAt code (st.pos + 1) = some 39 then
                litStep code 39 2 .Char .unfinishedChar st
              else if b = 39 then
                litStep code 39 1 .Char .unfinishedChar st
              -- identifiers / keywords
              else if isIdentStart b then
                identStep code st
              -- numbers
              else if isDigit b then
                numStep code st
              -- "special recursions" (source lines 707-737; unreachable in
              -- the source because the 1-byte operator table already matched
              -- `(`, `[` and `{` above — transcribed faithfully regardless)
              else if b = 40 then
                match groupLoop code 41 fuel st with
                | .error e => .error e
                | .ok st2 =>
                  if code.length ≤ st2.pos then
                    .error (.err .unclosedParen st2.line (wsub (st.pos + 1) st2.line_start))
                  else
                    .error (.err .cannotParse st2.line (wsub (st2.pos + 1) st2.line_start))
              else if b = 91 then
                match groupLoop code 93 fuel st with
                | .error e => .error e
                | .ok st2 =>
                  if code.length ≤ st2.pos then
                    .error (.err .unclosedBracket st2.line (wsub (st.pos + 1) st2.line_start))
                  else
                    .error (.err .cannotParse st2.line (wsub (st2.pos + 1) st2.line_start))
              else if b = 123 then
                match groupLoop code 125 fuel st with
                | .error e => .error e
                | .ok st2 =>
                  if code.length ≤ st2.pos then
                    .error (.err .unclosedBrace st2.line (wsub (st.pos + 1) st2.line_start))
                  else
                    .error (.err .cannotParse st2.line (wsub (st2.pos + 1) st2.line_start))
              else
                .error (.err .cannotParse st.line (wsub (st.pos + 1) st.line_start))

/-- The interpolated-string scanner (source lines 329-407).  `startStr` is
`start_str_addr` (reset to the `}` position after each interpolation),
`hasInterp` is `has_interpolation`.  Reaching end of input with the literal
still open is the unfinished-interpolated-string panic. -/
def interpScan (code : List Nat) (startStr : Nat) (hasInterp : Bool) :
    Nat → LexSt → Except Failure LexSt
  | 0, _ => .error .outOfFuel
  | fuel + 1, st =>
    match byteAt code st.pos with
    | none =>
      .error (.err .unfinishedInterpString st.line (wsub (startStr + 1) st.line_start))
    | some b =>
      if b = 92 ∧ (byteAt code (st.pos + 1) = some 34 ∨ byteAt code (st.pos + 1) = some 123) then
        interpScan code startStr hasInterp fuel (advance 2 st)
      else if b = 34 then
        -- end of string: emit the segment since the last boundary
        .ok (emitTok (if hasInterp then .StringInterpEnd else .String)
          ⟨sliceAt code startStr (st.pos + 1 - startStr), st.line, wsub startStr st.line_start⟩
          (advance 1 st))
      else if b = 123 then
        -- open an interpolation: emit the segment, then tokenize until `}`
        let st2 := emitTok (if hasInterp then .StringInterpMid else .StringInterpBeg)
          ⟨sliceAt code startStr (st.pos + 1 - startStr), st.line, wsub startStr st.line_start⟩
          (advance 1 st)
        match interpTokens code fuel st2 with
        | .error e => .error e
        | .ok st3 =>
          if code.length ≤ st3.pos then
            -- `if input.is_empty() { break; }` with `is_valid` still false
            .error (.err .unfinishedInterpString st3.line (wsub (startStr + 1) st3.line_start))
          else
            -- `start_str_addr = input.as_ptr()`, then consume the `}`
            interpScan code st3.pos true fuel (advance 1 st3)
      else if b = 10 then
        interpScan code startStr hasInterp fuel (newlineStep st)
      else
        interpScan code startStr hasInterp fuel (advance 1 st)

/-- The inner token loop of an interpolation (source lines 379-381):
`while !input.is_empty() && input[0] != b'}' { input = consume_token(..) }`. -/
def interpTokens (code : List Nat) : Nat → LexSt → Except Failure LexSt
  | 0, _ => .error .outOfFuel
  | fuel + 1, st =>
    match byteAt code st.pos with
    | none => .ok st
    | some 125 => .ok st
    | some _ =>
      match consume_token code fuel st with
      | .error e => .error e
      | .ok st2 => interpTokens code fuel st2

/-- The delimiter-group loops (source lines 710-712, 720-722, 730-732):
`while !input.is_empty() && input[0] != close { input = consume_token(..) }`. -/
def groupLoop (code : List Nat) (closeB : Nat) : Nat → LexSt → Except Failure LexSt
  | 0, _ => .error .outOfFuel
  | fuel + 1, st =>
    match byteAt code st.pos with
    | none => .ok st
    | some c =>
      if c = closeB then .ok st
      else
        match consume_token code fuel st with
        | .error e => .error e
        | .ok st2 => groupLoop code closeB fuel st2

end

/-- The driver loop of `lex` (source lines 206-208):
`while !input.is_empty() { input = consume_token(..) }`. -/
def lexLoop (code : List Nat) : Nat → LexSt → Except Failure LexSt
  | 0, _ => .error .outOfFuel
  | fuel + 1, st =>
    if code.length ≤ st.pos then .ok st
    else
      match consume_token code (fuel + 1) st with
      | .error e => .error e
      | .ok st2 => lexLoop code fuel st2

/-- Fuel passed by `lex`: ample for every terminating run (each fuel level
either consumes input bytes or closes a construct). -/
def lexFuel (code : List Nat) : Nat :=
  4 * code.length + 16

/-- Transcription of `lex` (source lines 191-211): line counter starts at 1, the line start
at the buffer base, the three sequences empty. -/
def lex (code : List Nat) : Except Failure Tokens :=
  match lexLoop code (lexFuel code) ⟨0, 1, 0, ⟨[], [], []⟩⟩ with
  | .error e => .error e
  | .ok st => .ok st.tokens

/-- Invariant of the scanning state: the recorded line breaks are strictly
increasing, all lie before the cursor, and each offset holds a `\n` byte. -/
def Inv (code : List Nat) (st : LexSt) : Prop :=
  List.Pairwise (· < ·) st.tokens.line_breaks ∧
  (∀ b ∈ st.tokens.line_breaks, b < st.pos) ∧
  (∀ b ∈ st.tokens.line_breaks, byteAt code b = some 10)

/-- What one (possibly recursive) step of the scanning engine does to the
shared state: the cursor only moves forward, the spans and types sequences
are extended — only ever appended to — by a common list of span/type pairs,
the line-break sequence is only ever appended to, and the line-break
invariant is preserved. -/
def Steps (code : List Nat) (st st' : LexSt) : Prop :=
  st.pos ≤ st'.pos ∧
  (∃ δ : List (TokenSpan × TokenType),
    st'.tokens.spans = st.tokens.spans ++ δ.map Prod.fst ∧
    st'.tokens.types = st.tokens.types ++ δ.map Prod.snd) ∧
  (∃ δb : List Nat, st'.tokens.line_breaks = st.tokens.line_breaks ++ δb) ∧
  (Inv code st → Inv code st')

/-- Claim C1: on an input with an unclosed opening delimiter the lexer does
*not* abort: `(` (and likewise `(;`) is tokenized as an ordinary `LParens`
punctuation token by the 1-byte operator table, so the "special recursion"
that would raise the unclosed-parenthesis error (source lines 707-737) is
unreachable and a complete token stream is returned. -/
theorem c1_unclosed_delimiter_not_fatal :
    lex (strBytes "(") = .ok ⟨[], [⟨strBytes "(", 1, 0⟩], [.LParens]⟩ ∧
    lex (strBytes "(;") =
      .ok ⟨[], [⟨strBytes "(", 1, 0⟩, ⟨strBytes ";", 1, 1⟩], [.LParens, .Semi]⟩ :=
  ⟨rfl, rfl⟩

/-- Claim C2: a newline preceded by a space is consumed by the generic
whitespace loop (source lines 238-240) *without* being recorded: for input
`a \nb;` the stream has an empty `line_breaks` and token `b` is reported on
line 1, column 3 — not on line 2 as the claim states. -/
theorem c2_newline_after_space_untracked :
    lex (strBytes "a \nb;") =
      .ok ⟨[], [⟨strBytes "a", 1, 0⟩, ⟨strBytes "b", 1, 3⟩, ⟨strBytes ";", 1, 4⟩],
           [.Ident, .Ident, .Semi]⟩ :=
  rfl

/-- Claim C3: keyword classification compares only a length-2 *prefix*
(source lines 616-630), so `ifx ` is classified as the keyword `If` (with the
full slice `ifx`), not as a generic `Ident`; moreover the bare inputs `if`
and `ifx` never reach classification at all — the identifier loop (line 525)
indexes past the end of the input and panics. -/
theorem c3_keyword_prefix_match :
    lex (strBytes "ifx ") = .ok ⟨[], [⟨strBytes "ifx", 1, 0⟩], [.If]⟩ ∧
    lex (strBytes "if") = .error .indexOutOfBounds :=
  ⟨rfl, rfl⟩

/-- Claim C4 (counterexample): lexing `$"a{1+2}b"` does not produce the
claimed segment slices `a` and `b` (nor four tokens). -/
theorem c4_counterexample :
    ¬ ((lex (strBytes "$\"a{1+2}b\"")).toOption.map
        (fun tk => (tk.types, tk.spans.map TokenSpan.slice)) =
      some ([.StringInterpBeg, .Num, .Plus, .Num, .StringInterpEnd],
        [strBytes "a", strBytes "1", strBytes "+", strBytes "2", strBytes "b"])) := by
  decide

/-- Claim C4 (amended): lexing `$"a{1+2}b"` yields five tokens, in order
`StringInterpBeg`, `Num`, `Plus`, `Num`, `StringInterpEnd`, whose slices are
`$"a{`, `1`, `+`, `2` and `}b"` — the string-segment slices include the
opening marker and the brace/quote delimiters (source lines 349-357,
365-374) — with the two segment tokens at line 1, columns 0 and 7. -/
theorem c4_interpolation_roundtrip :
    lex (strBytes "$\"a{1+2}b\"") =
      .ok ⟨[],
        [⟨strBytes "$\"a\x7b", 1, 0⟩, ⟨strBytes "1", 1, 4⟩, ⟨strBytes "+", 1, 5⟩,
         ⟨strBytes "2", 1, 6⟩, ⟨strBytes "\x7db\"", 1, 7⟩],
        [.StringInterpBeg, .Num, .Plus, .Num, .StringInterpEnd]⟩ :=
  rfl

/-- Claim C5: inputs whose final bytes are an identifier, a numeric literal
or a `//` comment with no trailing newline do *not* tokenize successfully:
the identifier, digit and comment loops (source lines 525, 671, 249) index
`input[0]` without an emptiness check and panic out of bounds — a failure
outside the five-entry lexical error taxonomy. -/
theorem c5_out_of_bounds_at_eof :
    lex (strBytes "foo") = .error .indexOutOfBounds ∧
    lex (strBytes "123") = .error .indexOutOfBounds ∧
    lex (strBytes "// c") = .error .indexOutOfBounds :=
  ⟨rfl, rfl, rfl⟩

/-- Claim C6: a string literal that opens on line 1 and closes on line 2 is
recorded with the *closing* line (the span is emitted after the body scan,
source lines 450-458, with the then-current `line`), and its column is the
start offset minus the line start *after* the last newline — a wrapping
`usize` underflow: for `"a\nb"` the span is line 2, column 2^64 - 3, not
line 1, column 0 as the claim states. -/
theorem c6_multiline_string_span :
    lex (strBytes "\"a\nb\"") =
      .ok ⟨[2], [⟨strBytes "\"a\nb\"", 2, 2 ^ 64 - 3⟩], [.String]⟩ :=
  rfl

/-- Claim C7: lexing `"abc` aborts with the unfinished-string error at the
opening quote's location: line 1, and column `0 + 1` — the error channel
(source lines 460-463) reports the column of the opening quote's offset
plus one, i.e. 1-based, while token spans use 0-based columns. -/
theorem c7_unterminated_string :
    lex (strBytes "\"abc") = .error (.err .unfinishedString 1 1) :=
  rfl

/-- Claim C8: `->` lexes to a single `Arrow` and `--` to a single `Decr`;
the 2-byte operator table always takes precedence over the 1-byte table;
a successful operator match of length `n` has all `n` bytes in bounds and a
slice of exactly `n` bytes; and the operator step emits exactly that slice
at the token's start position and advances the cursor by exactly `n`. -/
theorem c8_greedy_operators :
    lex (strBytes "->") = .ok ⟨[], [⟨strBytes "->", 1, 0⟩], [.Arrow]⟩ ∧
    lex (strBytes "--") = .ok ⟨[], [⟨strBytes "--", 1, 0⟩], [.Decr]⟩ ∧
    (∀ code p t, opMatch2 code p = some t → opMatch code p = some (t, 2)) ∧
    (∀ code p t n, opMatch code p = some (t, n) →
      p + n ≤ code.length ∧ (sliceAt code p n).length = n) ∧
    (∀ code st t n,
      (opStep code st t n).pos = st.pos + n ∧
      (opStep code st t n).tokens.spans = st.tokens.spans ++
        [⟨sliceAt code st.pos n, st.line, wsub st.pos st.line_start⟩] ∧
      (opStep code st t n).tokens.types = st.tokens.types ++ [t]) := by
  refine ⟨rfl, rfl, ?_, ?_, ?_⟩
  · intro code p t h
    unfold opMatch
    rw [h]
  · intro code p t n h
    have hlen : p + n ≤ code.length := by
      unfold opMatch at h
      rcases h2 : opMatch2 code p with _ | t2 <;> rw [h2] at h
      · rcases h1 : opMatch1 code p with _ | t1 <;> rw [h1] at h
        · exact absurd h (by simp)
        · simp only [Option.some.injEq, Prod.mk.injEq] at h
          obtain ⟨rfl, rfl⟩ := h
          unfold opMatch1 at h1
          rcases hb : byteAt code p with _ | a <;> rw [hb] at h1
          · exact absurd h1 (by simp)
          · have : p < code.length := by
              unfold byteAt at hb
              exact (List.getElem?_eq_some.mp hb).1
            omega
      · simp only [Option.some.injEq, Prod.mk.injEq] at h
        obtain ⟨rfl, rfl⟩ := h
        unfold opMatch2 at h2
        rcases hb' : byteAt code (p + 1) with _ | b
        · rcases hb : byteAt code p with _ | a <;>
            rw [hb, hb'] at h2 <;> exact absurd h2 (by simp)
        · have : p + 1 < code.length := by
            unfold byteAt at hb'
            exact (List.getElem?_eq_some.mp hb').1
          omega
    refine ⟨hlen, ?_⟩
    unfold sliceAt
    rw [List.length_take, List.length_drop]
    omega
  · intro code st t n
    exact ⟨rfl, rfl, rfl⟩

/-- Witness for the universally quantified parts of `c8_greedy_operators`,
instantiated on the input `->` at position 0. -/
theorem c8_witness :
    opMatch (strBytes "->") 0 = some (.Arrow, 2) ∧
    0 + 2 ≤ (strBytes "->").length ∧
    (sliceAt (strBytes "->") 0 2).length = 2 := by
  have h2 : opMatch (strBytes "->") 0 = some (.Arrow, 2) :=
    c8_greedy_operators.2.2.1 (strBytes "->") 0 .Arrow rfl
  have h4 := c8_greedy_operators.2.2.2.1 (strBytes "->") 0 .Arrow 2 h2
  exact ⟨h2, h4.1, h4.2⟩

theorem steps_rfl (code : List Nat) (st : LexSt) : Steps code st st :=
  ⟨Nat.le_refl _, ⟨[], by simp, by simp⟩, ⟨[], by simp⟩, id⟩

theorem steps_trans {code : List Nat} {a b c : LexSt}
    (h1 : Steps code a b) (h2 : Steps code b c) : Steps code a c := by
  obtain ⟨p1, ⟨d1, s1, t1⟩, ⟨e1, l1⟩, i1⟩ := h1
  obtain ⟨p2, ⟨d2, s2, t2⟩, ⟨e2, l2⟩, i2⟩ := h2
  refine ⟨Nat.le_trans p1 p2, ⟨d1 ++ d2, ?_, ?_⟩, ⟨e1 ++ e2, ?_⟩, fun hi => i2 (i1 hi)⟩
  · rw [s2, s1, List.map_append, List.append_assoc]
  · rw [t2, t1, List.map_append, List.append_assoc]
  · rw [l2, l1, List.append_assoc]

theorem steps_advance (code : List Nat) (n : Nat) (st : LexSt) :
    Steps code st (advance n st) :=
  ⟨Nat.le_add_right _ _,
   ⟨[], by simp [advance], by simp [advance]⟩,
   ⟨[], by simp [advance]⟩,
   fun ⟨hp, hb, hn⟩ =>
     ⟨hp, fun b hbm => Nat.lt_of_lt_of_le (hb b hbm) (Nat.le_add_right _ _), hn⟩⟩

theorem steps_emitTok (code : List Nat) (t : TokenType) (sp : TokenSpan) (st : LexSt) :
    Steps code st (emitTok t sp st) :=
  ⟨Nat.le_refl _,
   ⟨[(sp, t)], by simp [emitTok], by simp [emitTok]⟩,
   ⟨[], by simp [emitTok]⟩,
   fun hi => hi⟩

theorem steps_newlineStep (code : List Nat) (st : LexSt)
    (h10 : byteAt code st.pos = some 10) : Steps code st (newlineStep st) := by
  refine ⟨Nat.le_succ _,
    ⟨[], by simp [newlineStep], by simp [newlineStep]⟩,
    ⟨[st.pos], by simp [newlineStep]⟩, ?_⟩
  rintro ⟨hp, hb, hn⟩
  simp only [newlineStep]
  refine ⟨?_, ?_, ?_⟩
  · refine List.pairwise_append.mpr ⟨hp, List.pairwise_singleton _ _, ?_⟩
    intro a ha b hbm
    simp only [List.mem_singleton] at hbm
    subst hbm
    exact hb a ha
  · intro b hbm
    rcases List.mem_append.mp hbm with hmem | hmem
    · exact Nat.lt_succ_of_lt (hb b hmem)
    · simp only [List.mem_singleton] at hmem
      subst hmem
      exact Nat.lt_succ_self _
  · intro b hbm
    rcases List.mem_append.mp hbm with hmem | hmem
    · exact hn b hmem
    · simp only [List.mem_singleton] at hmem
      subst hmem
      exact h10

theorem opStep_steps (code : List Nat) (st : LexSt) (t : TokenType) (n : Nat) :
    Steps code st (opStep code st t n) := by
  unfold opStep
  exact steps_trans (steps_emitTok code t _ st) (steps_advance code n _)

theorem skipNewlines_steps (code : List Nat) : ∀ f st st',
    skipNewlines code f st = .ok st' → Steps code st st' := by
  intro f
  induction f with
  | zero => intro st st' h; simp [skipNewlines] at h
  | succ n ih =>
    intro st st' h
    rw [skipNewlines] at h
    split at h
    · rename_i hb
      exact steps_trans (steps_newlineStep code st hb) (ih _ _ h)
    · injection h with h
      subst h
      exact steps_rfl code st

theorem skipWs_steps (code : List Nat) : ∀ f st st',
    skipWs code f st = .ok st' → Steps code st st' := by
  intro f
  induction f with
  | zero => intro st st' h; simp [skipWs] at h
  | succ n ih =>
    intro st st' h
    rw [skipWs] at h
    split at h
    · split at h
      · exact steps_trans (steps_advance code 1 st) (ih _ _ h)
      · injection h with h
        subst h
        exact steps_rfl code st
    · injection h with h
      subst h
      exact steps_rfl code st

theorem skipComment_steps (code : List Nat) : ∀ f st st',
    skipComment code f st = .ok st' → Steps code st st' := by
  intro f
  induction f with
  | zero => intro st st' h; simp [skipComment] at h
  | succ n ih =>
    intro st st' h
    rw [skipComment] at h
    split at h
    · exact Except.noConfusion h
    · injection h with h
      subst h
      exact steps_rfl code st
    · exact steps_trans (steps_advance code 1 st) (ih _ _ h)

theorem digitLoop_steps (code : List Nat) (f : Nat → Bool) : ∀ fl st st',
    digitLoop code f fl st = .ok st' → Steps code st st' := by
  intro fl
  induction fl with
  | zero => intro st st' h; simp [digitLoop] at h
  | succ n ih =>
    intro st st' h
    rw [digitLoop] at h
    split at h
    · exact Except.noConfusion h
    · split at h
      · exact steps_trans (steps_advance code 1 st) (ih _ _ h)
      · injection h with h
        subst h
        exact steps_rfl code st

theorem scanLit_steps (code : List Nat) (q : Nat) : ∀ f st v st',
    scanLit code q f st = .ok (v, st') → Steps code st st' := by
  intro f
  induction f with
  | zero => intro st v st' h; simp [scanLit] at h
  | succ n ih =>
    intro st v st' h
    rw [scanLit] at h
    split at h
    · injection h with h
      injection h with h1 h2
      subst h2
      exact steps_rfl code st
    · rename_i b hb
      split at h
      · exact steps_trans (steps_advance code 2 st) (ih _ _ _ h)
      · split at h
        · injection h with h
          injection h with h1 h2
          subst h2
          exact steps_advance code 1 st
        · split at h
          · rename_i h10
            subst h10
            exact steps_trans (steps_newlineStep code st hb) (ih _ _ _ h)
          · exact steps_trans (steps_advance code 1 st) (ih _ _ _ h)

theorem identStep_steps (code : List Nat) (st st' : LexSt)
    (h : identStep code st = .ok st') : Steps code st st' := by
  unfold identStep at h
  split at h
  · exact Except.noConfusion h
  · rename_i st2 hd
    injection h with h
    subst h
    exact steps_trans (steps_trans (steps_advance code 1 st) (digitLoop_steps code _ _ _ _ hd))
      (steps_emitTok code _ _ st2)

theorem litStep_steps (code : List Nat) (q plen : Nat) (t : TokenType) (k : ErrKind)
    (st st' : LexSt) (h : litStep code q plen t k st = .ok st') : Steps code st st' := by
  unfold litStep at h
  split at h
  · exact Except.noConfusion h
  · rename_i v st2 hs
    split at h
    · injection h with h
      subst h
      exact steps_trans (steps_trans (steps_advance code plen st) (scanLit_steps code q _ _ _ _ hs))
        (steps_emitTok code _ _ st2)
    · exact Except.noConfusion h

theorem numStep_steps (code : List Nat) (st st' : LexSt)
    (h : numStep code st = .ok st') : Steps code st st' := by
  simp only [numStep] at h
  have base : ∀ stN : LexSt, Steps code st stN →
      (Except.ok (emitTok .Num
        ⟨sliceAt code st.pos (stN.pos - st.pos), stN.line, wsub st.pos stN.line_start⟩ stN)
        : Except Failure LexSt) = .ok st' → Steps code st st' := by
    intro stN hS hEq
    injection hEq with hEq
    subst hEq
    exact steps_trans hS (steps_emitTok code _ _ stN)
  split at h
  · -- the scan aborted
    exact Except.noConfusion h
  · rename_i stN hscan
    refine base stN ?_ h
    -- now show the scan itself is a Steps
    clear h
    split at hscan
    · exact steps_trans (steps_advance code 2 st) (digitLoop_steps code _ _ _ _ hscan)
    · split at hscan
      · exact steps_trans (steps_advance code 2 st) (digitLoop_steps code _ _ _ _ hscan)
      · split at hscan
        · exact steps_trans (steps_advance code 2 st) (digitLoop_steps code _ _ _ _ hscan)
        · -- decimal path
          split at hscan
          · exact Except.noConfusion hscan
          · rename_i st2 hwhole
            have S2 : Steps code st st2 :=
              steps_trans (steps_advance code 1 st) (digitLoop_steps code _ _ _ _ hwhole)
            split at hscan
            · exact Except.noConfusion hscan
            · rename_i st3 hfrac
              have S3 : Steps code st st3 := by
                have hmid : Steps code st2 st3 := by
                  split at hfrac
                  · exact steps_trans (steps_advance code 1 st2)
                      (digitLoop_steps code _ _ _ _ hfrac)
                  · injection hfrac with hfrac
                    subst hfrac
                    exact steps_rfl code st2
                exact steps_trans S2 hmid
              split at hscan
              · -- exponent present
                split at hscan
                · exact Except.noConfusion hscan
                · split at hscan
                  · exact steps_trans S3 (steps_trans (steps_advance code 1 st3)
                      (steps_trans (steps_advance code 1 _) (digitLoop_steps code _ _ _ _ hscan)))
                  · exact steps_trans S3 (steps_trans (steps_advance code 1 st3)
                      (digitLoop_steps code _ _ _ _ hscan))
              · injection hscan with hscan
                subst hscan
                exact S3

theorem engine_steps (code : List Nat) : ∀ fuel : Nat,
    (∀ st st', consume_token code fuel st = .ok st' → Steps code st st') ∧
    (∀ s hI st st', interpScan code s hI fuel st = .ok st' → Steps code st st') ∧
    (∀ st st', interpTokens code fuel st = .ok st' → Steps code st st') ∧
    (∀ c st st', groupLoop code c fuel st = .ok st' → Steps code st st') := by
  intro fuel
  induction fuel with
  | zero =>
    refine ⟨fun st st' h => ?_, fun s hI st st' h => ?_,
      fun st st' h => ?_, fun c st st' h => ?_⟩
    · simp [consume_token] at h
    · simp [interpScan] at h
    · simp [interpTokens] at h
    · simp [groupLoop] at h
  | succ n ih =>
    obtain ⟨ihC, ihS, ihT, ihG⟩ := ih
    refine ⟨fun st0 st' h => ?_, fun s hI st st' h => ?_,
      fun st st' h => ?_, fun c st st' h => ?_⟩
    · -- consume_token
      rw [consume_token] at h
      cases hsn : skipNewlines code (loopFuel code) st0 with
      | error e => simp only [hsn] at h; exact Except.noConfusion h
      | ok st1 =>
      simp only [hsn] at h
      cases hws : skipWs code (loopFuel code) st1 with
      | error e => simp only [hws] at h; exact Except.noConfusion h
      | ok st =>
      simp only [hws] at h
      have S0 : Steps code st0 st :=
        steps_trans (skipNewlines_steps code _ _ _ hsn) (skipWs_steps code _ _ _ hws)
      cases hbyte : byteAt code st.pos with
      | none =>
        simp only [hbyte, Except.ok.injEq] at h
        subst h
        exact S0
      | some b =>
      simp only [hbyte] at h
      by_cases hcm : b = 47 ∧ byteAt code (st.pos + 1) = some 47
      · rw [if_pos hcm] at h
        exact steps_trans S0 (steps_trans (steps_advance code 2 st)
          (skipComment_steps code _ _ _ h))
      · rw [if_neg hcm] at h
        cases hop : opMatch code st.pos with
        | some tn =>
          obtain ⟨t, nn⟩ := tn
          simp only [hop, Except.ok.injEq] at h
          subst h
          exact steps_trans S0 (opStep_steps code st t nn)
        | none =>
        simp only [hop] at h
        by_cases hInt : b = 36 ∧ byteAt code (st.pos + 1) = some 34
        · rw [if_pos hInt] at h
          exact steps_trans S0 (steps_trans (steps_advance code 2 st) (ihS _ _ _ _ h))
        · rw [if_neg hInt] at h
          by_cases hs1 : b = 98 ∧ byteAt code (st.pos + 1) = some 34
          · rw [if_pos hs1] at h
            exact steps_trans S0 (litStep_steps code _ _ _ _ _ _ h)
          · rw [if_neg hs1] at h
            by_cases hs2 : b = 99 ∧ byteAt code (st.pos + 1) = some 34
            · rw [if_pos hs2] at h
              exact steps_trans S0 (litStep_steps code _ _ _ _ _ _ h)
            · rw [if_neg hs2] at h
              by_cases hs3 : b = 34
              · rw [if_pos hs3] at h
                exact steps_trans S0 (litStep_steps code _ _ _ _ _ _ h)
              · rw [if_neg hs3] at h
                by_cases hc1 : b = 98 ∧ byteAt code (st.pos + 1) = some 39
                · rw [if_pos hc1] at h
                  exact steps_trans S0 (litStep_steps code _ _ _ _ _ _ h)
                · rw [if_neg hc1] at h
                  by_cases hc2 : b = 39
                  · rw [if_pos hc2] at h
                    exact steps_trans S0 (litStep_steps code _ _ _ _ _ _ h)
                  · rw [if_neg hc2] at h
                    by_cases hid : isIdentStart b = true
                    · rw [if_pos hid] at h
                      exact steps_trans S0 (identStep_steps code _ _ h)
                    · rw [if_neg hid] at h
                      by_cases hdg : isDigit b = true
                      · rw [if_pos hdg] at h
                        exact steps_trans S0 (numStep_steps code _ _ h)
                      · rw [if_neg hdg] at h
                        by_cases hg1 : b = 40
                        · rw [if_pos hg1] at h
                          cases hgl : groupLoop code 41 n st with
                          | error e => simp only [hgl] at h; exact Except.noConfusion h
                          | ok st2 =>
                            simp only [hgl] at h
                            split at h <;> exact Except.noConfusion h
                        · rw [if_neg hg1] at h
                          by_cases hg2 : b = 91
                          · rw [if_pos hg2] at h
                            cases hgl : groupLoop code 93 n st with
                            | error e => simp only [hgl] at h; exact Except.noConfusion h
                            | ok st2 =>
                              simp only [hgl] at h
                              split at h <;> exact Except.noConfusion h
                          · rw [if_neg hg2] at h
                            by_cases hg3 : b = 123
                            · rw [if_pos hg3] at h
                              cases hgl : groupLoop code 125 n st with
                              | error e => simp only [hgl] at h; exact Except.noConfusion h
                              | ok st2 =>
                                simp only [hgl] at h
                                split at h <;> exact Except.noConfusion h
                            · rw [if_neg hg3] at h
                              exact Except.noConfusion h
    · -- interpScan
      rw [interpScan] at h
      cases hbyte : byteAt code st.pos with
      | none => simp only [hbyte] at h; exact Except.noConfusion h
      | some b =>
      simp only [hbyte] at h
      by_cases hesc : b = 92 ∧ (byteAt code (st.pos + 1) = some 34 ∨
          byteAt code (st.pos + 1) = some 123)
      · rw [if_pos hesc] at h
        exact steps_trans (steps_advance code 2 st) (ihS _ _ _ _ h)
      · rw [if_neg hesc] at h
        by_cases hq : b = 34
        · rw [if_pos hq] at h
          simp only [Except.ok.injEq] at h
          subst h
          exact steps_trans (steps_advance code 1 st) (steps_emitTok code _ _ _)
        · rw [if_neg hq] at h
          by_cases hbr : b = 123
          · rw [if_pos hbr] at h
            split at h
            · exact Except.noConfusion h
            · rename_i st3 hin
              split at h
              · exact Except.noConfusion h
              · have S2 : Steps code st st3 :=
                  steps_trans (steps_trans (steps_advance code 1 st)
                    (steps_emitTok code _ _ _)) (ihT _ _ hin)
                exact steps_trans S2 (steps_trans (steps_advance code 1 st3)
                  (ihS _ _ _ _ h))
          · rw [if_neg hbr] at h
            by_cases h10 : b = 10
            · rw [if_pos h10] at h
              subst h10
              exact steps_trans (steps_newlineStep code st hbyte) (ihS _ _ _ _ h)
            · rw [if_neg h10] at h
              exact steps_trans (steps_advance code 1 st) (ihS _ _ _ _ h)
    · -- interpTokens
      rw [interpTokens] at h
      split at h
      · injection h with h
        subst h
        exact steps_rfl code st
      · injection h with h
        subst h
        exact steps_rfl code st
      · split at h
        · exact Except.noConfusion h
        · rename_i st2 hct
          exact steps_trans (ihC _ _ hct) (ihT _ _ h)
    · -- groupLoop
      rw [groupLoop] at h
      split at h
      · injection h with h
        subst h
        exact steps_rfl code st
      · split at h
        · injection h with h
          subst h
          exact steps_rfl code st
        · split at h
          · exact Except.noConfusion h
          · rename_i st2 hct
            exact steps_trans (ihC _ _ hct) (ihG _ _ _ h)

theorem lexLoop_steps (code : List Nat) : ∀ f st st',
    lexLoop code f st = .ok st' → Steps code st st' := by
  intro f
  induction f with
  | zero => intro st st' h; simp [lexLoop] at h
  | succ n ih =>
    intro st st' h
    rw [lexLoop] at h
    split at h
    · injection h with h
      subst h
      exact steps_rfl code st
    · split at h
      · exact Except.noConfusion h
      · rename_i st2 hct
        exact steps_trans ((engine_steps code (n + 1)).1 _ _ hct) (ih _ _ h)

/-- Claim C9: every successful step of the scanning engine — at any fuel,
from any state, recursive calls included — extends `spans` and `types` by a
common list of span/type pairs (so the two sequences are append-only, never
reordered or truncated, and stay index-aligned), and in the stream returned
by `lex` the two sequences are exactly the unzipping of one pair list, in
particular of equal length. -/
theorem c9_parallel_append_only :
    (∀ code fuel st st', consume_token code fuel st = .ok st' →
      ∃ δ : List (TokenSpan × TokenType),
        st'.tokens.spans = st.tokens.spans ++ δ.map Prod.fst ∧
        st'.tokens.types = st.tokens.types ++ δ.map Prod.snd) ∧
    (∀ code tk, lex code = .ok tk →
      ∃ δ : List (TokenSpan × TokenType),
        tk.spans = δ.map Prod.fst ∧ tk.types = δ.map Prod.snd ∧
        tk.spans.length = tk.types.length) := by
  constructor
  · intro code fuel st st' h
    exact ((engine_steps code fuel).1 st st' h).2.1
  · intro code tk h
    unfold lex at h
    split at h
    · exact Except.noConfusion h
    · rename_i st hloop
      injection h with h
      subst h
      obtain ⟨_, ⟨δ, hs, ht⟩, _, _⟩ := lexLoop_steps code _ _ _ hloop
      refine ⟨δ, by simpa using hs, by simpa using ht, ?_⟩
      rw [hs, ht]
      simp

/-- Witness for `c9_parallel_append_only` on the single-token input `;`. -/
theorem c9_witness :
    (Tokens.mk [] [⟨strBytes ";", 1, 0⟩] [.Semi]).spans.length =
      (Tokens.mk [] [⟨strBytes ";", 1, 0⟩] [.Semi]).types.length := by
  obtain ⟨δ, _, _, hlen⟩ :=
    c9_parallel_append_only.2 (strBytes ";") ⟨[], [⟨strBytes ";", 1, 0⟩], [.Semi]⟩ rfl
  exact hlen

/-- Claim C10: in the token stream returned by `lex`, `line_breaks` is a
strictly increasing sequence of byte offsets and the source byte at each
recorded offset is `\n` (byte 10). -/
theorem c10_line_breaks_sorted :
    ∀ code tk, lex code = .ok tk →
      List.Pairwise (· < ·) tk.line_breaks ∧
      ∀ b ∈ tk.line_breaks, byteAt code b = some 10 := by
  intro code tk h
  unfold lex at h
  split at h
  · exact Except.noConfusion h
  · rename_i st hloop
    injection h with h
    subst h
    have hInv : Inv code ⟨0, 1, 0, ⟨[], [], []⟩⟩ :=
      ⟨List.Pairwise.nil, by simp, by simp⟩
    obtain ⟨hp, _, hn⟩ := (lexLoop_steps code _ _ _ hloop).2.2.2 hInv
    exact ⟨hp, hn⟩

/-- Witness for `c10_line_breaks_sorted` on the input `\n;`, whose stream
records the break at offset 0. -/
theorem c10_witness :
    List.Pairwise (· < ·) (Tokens.mk [0] [⟨strBytes ";", 2, 0⟩] [.Semi]).line_breaks ∧
    byteAt (strBytes "\n;") 0 = some 10 := by
  have h := c10_line_breaks_sorted (strBytes "\n;") ⟨[0], [⟨strBytes ";", 2, 0⟩], [.Semi]⟩ rfl
  exact ⟨h.1, h.2 0 (by simp)⟩

end Csussus
